import Mathlib

/-!
Shallow embedding of cirq-ionq/cirq_ionq/sampler.py: the IonQ `Sampler` adapter.

The adapter owns four things (spec, section 1): expanding a sweep into resolvers,
delegating job creation to an external service, blocking on each job's results,
and dispatching on the two result shapes to convert each raw result into the
framework's canonical result object.

External collaborators (the cirq framework's resolver/circuit machinery and the
cirq_ionq results module) are not under src/; where a claim depends on them they
are modelled from the spec, with a doc comment saying so.  The service itself is
an opaque function-valued collaborator whose calls may raise; raising is modelled
with Except.  Service-boundary calls made by run_sweep are recorded in an event
trace so that call counts and call ordering are provable facts.
-/

namespace CirqIonq

/-- One slot of a circuit: either an unresolved symbolic parameter or a concrete value. -/
inductive ParamVal where
  | sym (name : String)
  | val (v : Int)
deriving DecidableEq

/-- Modelled from the spec: a parameter resolver is "a concrete mapping from symbolic
parameter to value" (cirq.ParamResolver, framework code not under src/). -/
structure Resolver where
  bindings : List (String × Int)
deriving DecidableEq

/-- Modelled from the spec: a circuit is "an external representation of a quantum program;
parameter slots are resolved via a resolver before submission" (cirq.AbstractCircuit,
framework code not under src/). -/
structure Circuit where
  gates : List ParamVal
deriving DecidableEq

/-- Look a parameter name up in a resolver's bindings. -/
def Resolver.lookup (r : Resolver) (name : String) : Option Int :=
  (r.bindings.find? (fun p => p.1 == name)).map Prod.snd

/-- Resolve one parameter slot: a bound symbol becomes its value, anything else is kept. -/
def resolveVal (r : Resolver) : ParamVal → ParamVal
  | ParamVal.sym n =>
    match r.lookup n with
    | some v => ParamVal.val v
    | none => ParamVal.sym n
  | ParamVal.val v => ParamVal.val v

/-- Modelled from the spec: cirq.resolve_parameters (framework code not under src/)
instantiates the circuit's parameter slots using the resolver's bindings. -/
def resolve_parameters (c : Circuit) (r : Resolver) : Circuit :=
  Circuit.mk (c.gates.map (resolveVal r))

/-- Modelled from the spec: a sweep is "an ordered sequence of parameter-binding sets";
a sweepable is modelled directly as that ordered sequence of resolvers. -/
abbrev Sweepable := List Resolver

/-- Modelled from the spec: cirq.to_resolvers (framework code not under src/) expands a
sweepable into "an ordered sequence of concrete parameter resolvers". -/
def to_resolvers (params : Sweepable) : List Resolver := params

/-- Modelled from the spec: the QPU-measured result variant holds "raw measurement
outcomes, no sampling randomness needed at conversion time" (cirq_ionq.results,
not under src/). -/
structure QPUResult where
  measurements : List Int
deriving DecidableEq

/-- Modelled from the spec: the simulator result variant, whose payload "requires a seed
to reconstruct/resample outcomes deterministically" (cirq_ionq.results, not under src/). -/
structure SimulatorResult where
  probabilities : List Int
deriving DecidableEq

/-- A raw result returned by a job.  Besides the two documented variants, a third
unanticipated shape is included so that the catch-all nature of the dispatch in
run_sweep (isinstance QPU vs. everything else) is expressible. -/
inductive RawResult where
  | qpu (r : QPUResult)
  | simulator (r : SimulatorResult)
  | unknown (tag : Nat) (payload : List Int)
deriving DecidableEq

/-- Mirrors the test isinstance(result, results.QPUResult) at sampler.py line 92. -/
def RawResult.isQPU : RawResult → Bool
  | RawResult.qpu _ => true
  | _ => false

/-- The framework's canonical result object: the resolver it was produced under plus
converted measurement data (cirq.Result, modelled from the spec). -/
structure CirqResult where
  params : Resolver
  measurements : List Int
deriving DecidableEq

/-- Modelled from the spec: QPUResult.to_cirq_result converts "using only the resolver
(no seed needed, since real device noise supplies the randomness)". -/
def QPUResult.to_cirq_result (r : QPUResult) (params : Resolver) : CirqResult :=
  CirqResult.mk params r.measurements

/-- The randomness actually consumed by a seeded conversion: the configured seed when one
is set, the ambient np.random draw otherwise. -/
def seedVal (ambient : Int) : Option Int → Int
  | some s => s
  | none => ambient

/-- Modelled from the spec: the duck-typed seeded conversion result.to_cirq_result(params,
seed) used on every non-QPU result shape.  It is a pure function of payload, resolver and
seed when a seed is configured; when the seed is none the spec says np.random supplies the
randomness, modelled by the extra ambient argument. -/
def RawResult.to_cirq_result_seeded (ambient : Int) (r : RawResult) (params : Resolver)
    (seed : Option Int) : CirqResult :=
  match r with
  | RawResult.qpu q => CirqResult.mk params q.measurements
  | RawResult.simulator sr =>
    CirqResult.mk params (sr.probabilities.map (fun x => x + seedVal ambient seed))
  | RawResult.unknown tag payload =>
    CirqResult.mk params (payload.map (fun x => x + Int.ofNat tag + seedVal ambient seed))

/-- Decidable equality of fallible outcomes, needed to evaluate concrete runs. -/
instance {α β : Type} [DecidableEq α] [DecidableEq β] : DecidableEq (Except α β) := fun x y =>
  match x, y with
  | Except.error a, Except.error b =>
    if h : a = b then isTrue (by rw [h]) else isFalse (fun he => h (by cases he; rfl))
  | Except.ok a, Except.ok b =>
    if h : a = b then isTrue (by rw [h]) else isFalse (fun he => h (by cases he; rfl))
  | Except.error _, Except.ok _ => isFalse (fun he => by cases he)
  | Except.ok _, Except.error _ => isFalse (fun he => by cases he)

/-- External job handle: "exposes a blocking accessor that returns a Result once execution
completes".  The accessor's outcome for this job, a raw result or a raised error, is the
field; invoking job.results() returns or raises it. -/
structure Job where
  results : Except String RawResult
deriving DecidableEq

/-- External service collaborator: "a job-creation operation taking (resolved circuit,
repetition count, target identifier) and returning a job handle", possibly raising. -/
structure Service where
  create_job : Circuit → Int → Option String → Except String Job

/-- Service-boundary events of one run_sweep execution, in the order the calls are made:
the i-th job-creation call with the exact arguments passed, and the blocking
results() call on the i-th job. -/
inductive Event where
  | createJob (i : Nat) (circuit : Circuit) (repetitions : Int) (target : Option String)
  | awaitResults (i : Nat)
deriving DecidableEq

/-- Whether an event is a job-creation call. -/
def Event.isCreate : Event → Bool
  | Event.createJob _ _ _ _ => true
  | _ => false

/-- The adapter: exactly the three attributes stored by Sampler.__init__
(sampler.py lines 61-63). -/
structure Sampler where
  _service : Service
  _target : Option String
  _seed : Option Int

/-- Embeds Sampler.__init__ (sampler.py lines 43-63): it only stores its three arguments. -/
def Sampler.init (service : Service) (target : Option String) (seed : Option Int) : Sampler :=
  Sampler.mk service target seed

/-- Embeds the jobs list comprehension (sampler.py lines 81-88): one sequential
create_job call per resolver in sweep order, each on the resolved circuit with the
unchanged repetition count and the configured target.  Each call made is recorded as a
createJob event; a raised error stops the comprehension and propagates. -/
def createJobsFrom (service : Service) (program : Circuit) (repetitions : Int)
    (target : Option String) : Nat → List Resolver → List Event × Except String (List Job)
  | _, [] => ([], Except.ok [])
  | i, r :: rs =>
    match service.create_job (resolve_parameters program r) repetitions target with
    | Except.error e =>
      ([Event.createJob i (resolve_parameters program r) repetitions target], Except.error e)
    | Except.ok j =>
      (Event.createJob i (resolve_parameters program r) repetitions target ::
          (createJobsFrom service program repetitions target (i + 1) rs).1,
        Except.map (fun js => j :: js)
          (createJobsFrom service program repetitions target (i + 1) rs).2)

/-- Embeds the job_results list comprehension (sampler.py line 89): one blocking
results() call per created job, in order; a raised error stops and propagates. -/
def awaitResultsFrom : Nat → List Job → List Event × Except String (List RawResult)
  | _, [] => ([], Except.ok [])
  | i, j :: js =>
    match j.results with
    | Except.error e => ([Event.awaitResults i], Except.error e)
    | Except.ok r =>
      (Event.awaitResults i :: (awaitResultsFrom (i + 1) js).1,
        Except.map (fun l => r :: l) (awaitResultsFrom (i + 1) js).2)

/-- Embeds the conversion dispatch (sampler.py lines 91-95): the isinstance QPU branch
converts with the resolver only; every other shape goes to the seeded duck-typed
conversion with the adapter's seed passed along. -/
def convertOne (seed : Option Int) (ambient : Int) (result : RawResult) (params : Resolver) :
    CirqResult :=
  match result with
  | RawResult.qpu q => q.to_cirq_result params
  | other => RawResult.to_cirq_result_seeded ambient other params seed

/-- Embeds Sampler.run_sweep (sampler.py lines 65-96): expand the sweepable, create all
jobs sequentially, then block on each job's results in order, then convert each
(result, resolver) pair.  Returns the trace of service-boundary calls together with the
returned list or the propagated error. -/
def Sampler.run_sweep (self : Sampler) (program : Circuit) (params : Sweepable)
    (repetitions : Int) (ambient : Int) : List Event × Except String (List CirqResult) :=
  match createJobsFrom self._service program repetitions self._target 0 (to_resolvers params) with
  | (tr1, Except.error e) => (tr1, Except.error e)
  | (tr1, Except.ok jobs) =>
    match awaitResultsFrom 0 jobs with
    | (tr2, Except.error e) => (tr1 ++ tr2, Except.error e)
    | (tr2, Except.ok job_results) =>
      (tr1 ++ tr2,
        Except.ok ((job_results.zip (to_resolvers params)).map
          (fun p => convertOne self._seed ambient p.1 p.2)))

/-- State-passing form of run_sweep.  The method body (sampler.py lines 80-96) contains
no assignment to any attribute of self, so the explicit-state translation returns the
adapter unchanged as the post-state. -/
def Sampler.run_sweep_state (self : Sampler) (program : Circuit) (params : Sweepable)
    (repetitions : Int) (ambient : Int) :
    Sampler × List Event × Except String (List CirqResult) :=
  (self, self.run_sweep program params repetitions ambient)

/-- Specification trace of the create phase: one creation event per resolver, in sweep
order, carrying the resolved circuit, the unchanged repetition count and the target. -/
def expectedCreates (program : Circuit) (repetitions : Int) (target : Option String) :
    Nat → List Resolver → List Event
  | _, [] => []
  | i, r :: rs =>
    Event.createJob i (resolve_parameters program r) repetitions target ::
      expectedCreates program repetitions target (i + 1) rs

/-- Specification trace of the await phase: n results() calls starting at index i. -/
def expectedAwaits : Nat → Nat → List Event
  | _, 0 => []
  | i, Nat.succ n => Event.awaitResults i :: expectedAwaits (i + 1) n

/-- Concrete one-parameter program used to evaluate the embedding on closed inputs. -/
def progX : Circuit := Circuit.mk [ParamVal.sym "x"]

/-- Concrete resolver binding x to 0. -/
def res0 : Resolver := Resolver.mk [("x", 0)]

/-- Concrete resolver binding x to 1. -/
def res1 : Resolver := Resolver.mk [("x", 1)]

/-- Concrete resolver binding x to 2. -/
def res2 : Resolver := Resolver.mk [("x", 2)]

/-- Concrete two-point sweep. -/
def sweepTwo : Sweepable := [res0, res1]

/-- Concrete three-point sweep. -/
def sweepThree : Sweepable := [res0, res1, res2]

/-- A job whose blocking accessor returns a QPU result. -/
def qpuJob : Job := Job.mk (Except.ok (RawResult.qpu (QPUResult.mk [5])))

/-- A service whose jobs always complete with the same QPU result. -/
def svcAlwaysQpu : Service := Service.mk (fun _ _ _ => Except.ok qpuJob)

/-- A service that raises on the job-creation call for the second sweep point of progX
under sweepThree and succeeds elsewhere. -/
def svcFailSecond : Service :=
  Service.mk (fun c _ _ =>
    if c = Circuit.mk [ParamVal.val 1] then Except.error "job failed" else Except.ok qpuJob)

/-- A concrete adapter over the always-QPU service. -/
def sampQpu : Sampler := Sampler.mk svcAlwaysQpu (some "qpu") none

/-- The output sampQpu produces for progX under sweepTwo. -/
def resTwoQpu : List CirqResult := [CirqResult.mk res0 [5], CirqResult.mk res1 [5]]

/-- A successful create phase produced exactly the specification trace, and each job is the
one returned by the service for its resolver's resolved circuit. -/
theorem createJobsFrom_ok {svc : Service} {prog : Circuit} {reps : Int} {tgt : Option String} :
    ∀ (rs : List Resolver) (i : Nat) (tr : List Event) (jobs : List Job),
      createJobsFrom svc prog reps tgt i rs = (tr, Except.ok jobs) →
      tr = expectedCreates prog reps tgt i rs ∧
      List.Forall₂
        (fun r j => svc.create_job (resolve_parameters prog r) reps tgt = Except.ok j)
        rs jobs := by
  intro rs
  induction rs with
  | nil =>
    intro i tr jobs h
    simp only [createJobsFrom] at h
    injection h with h1 h2
    injection h2 with h2
    subst h1; subst h2
    exact ⟨rfl, List.Forall₂.nil⟩
  | cons r rs ih =>
    intro i tr jobs h
    simp only [createJobsFrom] at h
    cases hc : svc.create_job (resolve_parameters prog r) reps tgt with
    | error e =>
      rw [hc] at h
      injection h with h1 h2
      cases h2
    | ok j =>
      rw [hc] at h
      rcases hr : createJobsFrom svc prog reps tgt (i + 1) rs with ⟨tr2, res2⟩
      rw [hr] at h
      cases res2 with
      | error e =>
        injection h with h1 h2
        cases h2
      | ok js =>
        injection h with h1 h2
        simp only [Except.map] at h2
        injection h2 with h2
        obtain ⟨htr, hfa⟩ := ih (i + 1) tr2 js hr
        subst h1; subst h2
        exact ⟨by simp [expectedCreates, htr], List.Forall₂.cons hc hfa⟩

/-- A successful await phase produced exactly the specification trace, and each raw result
is the one its job's blocking accessor returned. -/
theorem awaitResultsFrom_ok :
    ∀ (js : List Job) (i : Nat) (tr : List Event) (raws : List RawResult),
      awaitResultsFrom i js = (tr, Except.ok raws) →
      tr = expectedAwaits i js.length ∧
      List.Forall₂ (fun (j : Job) (r : RawResult) => j.results = Except.ok r) js raws := by
  intro js
  induction js with
  | nil =>
    intro i tr raws h
    simp only [awaitResultsFrom] at h
    injection h with h1 h2
    injection h2 with h2
    subst h1; subst h2
    exact ⟨rfl, List.Forall₂.nil⟩
  | cons j js ih =>
    intro i tr raws h
    simp only [awaitResultsFrom] at h
    cases hc : j.results with
    | error e =>
      rw [hc] at h
      injection h with h1 h2
      cases h2
    | ok r =>
      rw [hc] at h
      rcases hr : awaitResultsFrom (i + 1) js with ⟨tr2, res2⟩
      rw [hr] at h
      cases res2 with
      | error e =>
        injection h with h1 h2
        cases h2
      | ok rest =>
        injection h with h1 h2
        simp only [Except.map] at h2
        injection h2 with h2
        obtain ⟨htr, hfa⟩ := ih (i + 1) tr2 rest hr
        subst h1; subst h2
        exact ⟨by simp [List.length_cons, expectedAwaits, htr], List.Forall₂.cons hc hfa⟩

/-- Unfolding run_sweep when the create phase raises. -/
theorem run_sweep_eq_of_create_error {s : Sampler} {prog : Circuit} {params : Sweepable}
    {reps amb : Int} {tr1 : List Event} {e : String}
    (h : createJobsFrom s._service prog reps s._target 0 (to_resolvers params) =
      (tr1, Except.error e)) :
    s.run_sweep prog params reps amb = (tr1, Except.error e) := by
  simp only [Sampler.run_sweep]
  rw [h]

/-- Unfolding run_sweep when every job is created but an await raises. -/
theorem run_sweep_eq_of_await_error {s : Sampler} {prog : Circuit} {params : Sweepable}
    {reps amb : Int} {tr1 tr2 : List Event} {jobs : List Job} {e : String}
    (h1 : createJobsFrom s._service prog reps s._target 0 (to_resolvers params) =
      (tr1, Except.ok jobs))
    (h2 : awaitResultsFrom 0 jobs = (tr2, Except.error e)) :
    s.run_sweep prog params reps amb = (tr1 ++ tr2, Except.error e) := by
  simp only [Sampler.run_sweep, h1, h2]

/-- Unfolding run_sweep on a fully successful execution. -/
theorem run_sweep_eq_of_ok {s : Sampler} {prog : Circuit} {params : Sweepable}
    {reps amb : Int} {tr1 tr2 : List Event} {jobs : List Job} {raws : List RawResult}
    (h1 : createJobsFrom s._service prog reps s._target 0 (to_resolvers params) =
      (tr1, Except.ok jobs))
    (h2 : awaitResultsFrom 0 jobs = (tr2, Except.ok raws)) :
    s.run_sweep prog params reps amb =
      (tr1 ++ tr2,
        Except.ok ((raws.zip (to_resolvers params)).map
          (fun p => convertOne s._seed amb p.1 p.2))) := by
  simp only [Sampler.run_sweep, h1, h2]

/-- Inversion: a run that returned a list went through both phases successfully, and the
list is the converted zip of the raw results with the resolvers. -/
theorem run_sweep_ok_inv {s : Sampler} {prog : Circuit} {params : Sweepable}
    {reps amb : Int} {res : List CirqResult}
    (h : (s.run_sweep prog params reps amb).2 = Except.ok res) :
    ∃ tr1 tr2 jobs raws,
      createJobsFrom s._service prog reps s._target 0 (to_resolvers params) =
        (tr1, Except.ok jobs) ∧
      awaitResultsFrom 0 jobs = (tr2, Except.ok raws) ∧
      (s.run_sweep prog params reps amb).1 = tr1 ++ tr2 ∧
      res = (raws.zip (to_resolvers params)).map (fun p => convertOne s._seed amb p.1 p.2) := by
  rcases hc : createJobsFrom s._service prog reps s._target 0 (to_resolvers params)
    with ⟨tr1, res1⟩
  cases res1 with
  | error e =>
    rw [run_sweep_eq_of_create_error hc] at h
    cases h
  | ok jobs =>
    rcases ha : awaitResultsFrom 0 jobs with ⟨tr2, res2⟩
    cases res2 with
    | error e =>
      rw [run_sweep_eq_of_await_error hc ha] at h
      cases h
    | ok raws =>
      rw [run_sweep_eq_of_ok hc ha] at h
      injection h with h
      exact ⟨tr1, tr2, jobs, raws, rfl, ha, by rw [run_sweep_eq_of_ok hc ha], h.symm⟩

/-- The create-phase specification trace is the enumerated resolver list mapped to
creation events. -/
theorem expectedCreates_eq_enumFrom (prog : Circuit) (reps : Int) (tgt : Option String) :
    ∀ (rs : List Resolver) (i : Nat),
      expectedCreates prog reps tgt i rs =
        (rs.enumFrom i).map
          (fun p => Event.createJob p.1 (resolve_parameters prog p.2) reps tgt) := by
  intro rs
  induction rs with
  | nil => intro i; rfl
  | cons r rs ih => intro i; simp [expectedCreates, List.enumFrom, ih (i + 1)]

/-- The await-phase specification trace is a contiguous index range mapped to events. -/
theorem expectedAwaits_eq_ranged :
    ∀ (n i : Nat), expectedAwaits i n = (List.range' i n).map Event.awaitResults := by
  intro n
  induction n with
  | zero => intro i; rfl
  | succ n ih => intro i; rw [List.range'_succ]; simp [expectedAwaits, ih (i + 1)]

/-- Await events starting at index zero cover exactly the indices below n, in order. -/
theorem expectedAwaits_zero_eq_range (n : Nat) :
    expectedAwaits 0 n = (List.range n).map Event.awaitResults := by
  rw [expectedAwaits_eq_ranged, List.range_eq_range']

/-- Every event of the create-phase specification trace is a creation event. -/
theorem filter_isCreate_expectedCreates (prog : Circuit) (reps : Int) (tgt : Option String) :
    ∀ (rs : List Resolver) (i : Nat),
      (expectedCreates prog reps tgt i rs).filter Event.isCreate =
        expectedCreates prog reps tgt i rs := by
  intro rs
  induction rs with
  | nil => intro i; rfl
  | cons r rs ih => intro i; simp [expectedCreates, List.filter, Event.isCreate, ih (i + 1)]

/-- No event of the await-phase specification trace is a creation event. -/
theorem filter_isCreate_expectedAwaits :
    ∀ (n i : Nat), (expectedAwaits i n).filter Event.isCreate = [] := by
  intro n
  induction n with
  | zero => intro i; rfl
  | succ n ih => intro i; simp [expectedAwaits, List.filter, Event.isCreate, ih (i + 1)]

/-- Resolving a single slot against the empty resolver changes nothing. -/
theorem resolveVal_empty (x : ParamVal) : resolveVal (Resolver.mk []) x = x := by
  cases x <;> rfl

/-- Resolving a circuit against the empty resolver is the identity. -/
theorem resolve_parameters_empty (c : Circuit) : resolve_parameters c (Resolver.mk []) = c := by
  cases c with
  | mk gs =>
    unfold resolve_parameters
    congr 1
    calc gs.map (resolveVal (Resolver.mk []))
        = gs.map id := List.map_congr_left (fun a _ => resolveVal_empty a)
      _ = gs := List.map_id gs

/-- C9: for a sweepable that expands to zero resolvers, run_sweep returns the empty list
and its service-boundary trace is empty: no job-creation call and no results() call. -/
theorem run_sweep_empty_sweep_noop (s : Sampler) (prog : Circuit) (reps amb : Int)
    (params : Sweepable) (h : to_resolvers params = []) :
    s.run_sweep prog params reps amb = ([], Except.ok []) := by
  have hp : params = [] := h
  subst hp
  rfl

/-- C9 witness: the degenerate sweep on a concrete adapter is a no-op. -/
theorem run_sweep_empty_sweep_noop_witness :
    sampQpu.run_sweep progX [] 4 0 = ([], Except.ok []) :=
  run_sweep_empty_sweep_noop sampQpu progX 4 0 [] (by decide)

/-- C5: an error raised by any create_job call, or by any blocking results() call once all
jobs are created, propagates unchanged: run_sweep returns exactly that error and no
result list. -/
theorem run_sweep_propagates_error (s : Sampler) (prog : Circuit) (params : Sweepable)
    (reps amb : Int) (e : String)
    (h : (∃ tr1, createJobsFrom s._service prog reps s._target 0 (to_resolvers params) =
            (tr1, Except.error e)) ∨
         (∃ tr1 jobs tr2,
            createJobsFrom s._service prog reps s._target 0 (to_resolvers params) =
              (tr1, Except.ok jobs) ∧
            awaitResultsFrom 0 jobs = (tr2, Except.error e))) :
    (s.run_sweep prog params reps amb).2 = Except.error e := by
  rcases h with ⟨tr1, hc⟩ | ⟨tr1, jobs, tr2, h1, h2⟩
  · rw [run_sweep_eq_of_create_error hc]
  · rw [run_sweep_eq_of_await_error h1 h2]

/-- C5 witness: a failure on the second of three sweep points surfaces as the error, with
no partial result list. -/
theorem run_sweep_propagates_error_witness :
    ((Sampler.mk svcFailSecond (some "qpu") none).run_sweep progX sweepThree 4 0).2 =
      Except.error "job failed" :=
  run_sweep_propagates_error (Sampler.mk svcFailSecond (some "qpu") none) progX sweepThree
    4 0 "job failed"
    (Or.inl ⟨(createJobsFrom svcFailSecond progX 4 (some "qpu") 0
      (to_resolvers sweepThree)).1, by decide⟩)

/-- C8: Sampler.init stores exactly its three arguments, and run_sweep leaves the adapter
unchanged: the post-state of the state-passing form is the input adapter, each of its
three fields untouched. -/
theorem sampler_config_immutable (svc : Service) (tgt : Option String) (sd : Option Int)
    (prog : Circuit) (params : Sweepable) (reps amb : Int) (s : Sampler) :
    (Sampler.init svc tgt sd)._service = svc ∧
    (Sampler.init svc tgt sd)._target = tgt ∧
    (Sampler.init svc tgt sd)._seed = sd ∧
    (s.run_sweep_state prog params reps amb).1 = s ∧
    (s.run_sweep_state prog params reps amb).1._service = s._service ∧
    (s.run_sweep_state prog params reps amb).1._target = s._target ∧
    (s.run_sweep_state prog params reps amb).1._seed = s._seed :=
  ⟨rfl, rfl, rfl, rfl, rfl, rfl, rfl⟩

/-- C3: converting a QPU-variant result never reads the seed: two adapters built over the
same service and target but with different seeds convert the same QPU result to the same
output, whatever randomness is ambient at either call. -/
theorem qpu_conversion_seed_noninterference (svc : Service) (tgt : Option String)
    (sd1 sd2 : Option Int) (a1 a2 : Int) (q : QPUResult) (p : Resolver)
    (h : sd1 ≠ sd2) :
    convertOne (Sampler.init svc tgt sd1)._seed a1 (RawResult.qpu q) p =
      convertOne (Sampler.init svc tgt sd2)._seed a2 (RawResult.qpu q) p := rfl

/-- C3 witness: an unseeded and a seeded adapter agree on a concrete QPU result. -/
theorem qpu_conversion_seed_noninterference_witness :
    (none : Option Int) ≠ some 3 ∧
    convertOne (Sampler.init svcAlwaysQpu (some "qpu") none)._seed 0
        (RawResult.qpu (QPUResult.mk [7])) res0 =
      convertOne (Sampler.init svcAlwaysQpu (some "qpu") (some 3))._seed 9
        (RawResult.qpu (QPUResult.mk [7])) res0 :=
  ⟨by decide,
    qpu_conversion_seed_noninterference svcAlwaysQpu (some "qpu") none (some 3) 0 9
      (QPUResult.mk [7]) res0 (by decide)⟩

/-- C4: with a configured seed, converting a simulator-variant result is a function of the
result, the resolver and the seed alone: two calls with the same configured seed, on any
two adapters and under any ambient randomness, produce identical output. -/
theorem simulator_conversion_deterministic (s1 s2 : Sampler) (k a1 a2 : Int)
    (sr : SimulatorResult) (p : Resolver)
    (h1 : s1._seed = some k) (h2 : s2._seed = some k) :
    convertOne s1._seed a1 (RawResult.simulator sr) p =
      convertOne s2._seed a2 (RawResult.simulator sr) p := by
  rw [h1, h2]
  rfl

/-- C4 witness: two adapters configured with seed 5 agree on a concrete simulator result
under different ambient randomness. -/
theorem simulator_conversion_deterministic_witness :
    convertOne (Sampler.mk svcAlwaysQpu (some "simulator") (some 5))._seed 0
        (RawResult.simulator (SimulatorResult.mk [1, 2])) res0 =
      convertOne (Sampler.mk svcAlwaysQpu (some "simulator") (some 5))._seed 11
        (RawResult.simulator (SimulatorResult.mk [1, 2])) res0 :=
  simulator_conversion_deterministic (Sampler.mk svcAlwaysQpu (some "simulator") (some 5))
    (Sampler.mk svcAlwaysQpu (some "simulator") (some 5)) 5 0 11
    (SimulatorResult.mk [1, 2]) res0 (by decide) (by decide)

/-- C10: the result dispatch is an isinstance-or-else catch-all: every result shape that
is not the QPU variant, including an unrecognized third shape, is converted by the seeded
duck-typed path with the adapter's seed passed along, and no error is raised. -/
theorem non_qpu_results_use_seeded_path (sd : Option Int) (amb : Int) (r : RawResult)
    (p : Resolver) (h : r.isQPU = false) :
    convertOne sd amb r p = RawResult.to_cirq_result_seeded amb r p sd := by
  cases r with
  | qpu q => simp [RawResult.isQPU] at h
  | simulator sr => rfl
  | unknown tag payload => rfl

/-- C10 witness: an unanticipated third result shape goes through the seeded path. -/
theorem non_qpu_results_use_seeded_path_witness :
    (RawResult.unknown 3 [1, 2]).isQPU = false ∧
    convertOne (some 4) 0 (RawResult.unknown 3 [1, 2]) res0 =
      RawResult.to_cirq_result_seeded 0 (RawResult.unknown 3 [1, 2]) res0 (some 4) :=
  ⟨by decide, non_qpu_results_use_seeded_path (some 4) 0 (RawResult.unknown 3 [1, 2]) res0
    (by decide)⟩

/-- C1: a successful run returns exactly one result per resolver of the sweep, in sweep
order, and the k-th output is the conversion of the raw result of the job the service
created for the k-th resolver. -/
theorem run_sweep_output_matches_sweep (s : Sampler) (prog : Circuit) (params : Sweepable)
    (reps amb : Int) (res : List CirqResult)
    (h : (s.run_sweep prog params reps amb).2 = Except.ok res) :
    res.length = (to_resolvers params).length ∧
    ∀ k (hk : k < res.length) (hk2 : k < (to_resolvers params).length),
      ∃ j raw,
        s._service.create_job (resolve_parameters prog ((to_resolvers params).get ⟨k, hk2⟩))
          reps s._target = Except.ok j ∧
        j.results = Except.ok raw ∧
        res.get ⟨k, hk⟩ = convertOne s._seed amb raw ((to_resolvers params).get ⟨k, hk2⟩) := by
  obtain ⟨tr1, tr2, jobs, raws, hc, ha, htr, hres⟩ := run_sweep_ok_inv h
  obtain ⟨-, hfa⟩ := createJobsFrom_ok (to_resolvers params) 0 tr1 jobs hc
  obtain ⟨-, hfa2⟩ := awaitResultsFrom_ok jobs 0 tr2 raws ha
  obtain ⟨hlen1, hget1⟩ := List.forall₂_iff_get.mp hfa
  obtain ⟨hlen2, hget2⟩ := List.forall₂_iff_get.mp hfa2
  have hreslen : res.length = (to_resolvers params).length := by
    rw [hres, List.length_map, List.length_zip]
    omega
  refine ⟨hreslen, fun k hk hk2 => ?_⟩
  have hkj : k < jobs.length := by omega
  have hkr : k < raws.length := by omega
  refine ⟨jobs.get ⟨k, hkj⟩, raws.get ⟨k, hkr⟩, hget1 k hk2 hkj, hget2 k hkj hkr, ?_⟩
  subst hres
  simp [List.get_eq_getElem, List.getElem_map, List.getElem_zip]

/-- C1 witness: a concrete two-point sweep yields two results, each converted from its own
resolver's job. -/
theorem run_sweep_output_matches_sweep_witness :
    resTwoQpu.length = (to_resolvers sweepTwo).length ∧
    ∀ k (hk : k < resTwoQpu.length) (hk2 : k < (to_resolvers sweepTwo).length),
      ∃ j raw,
        sampQpu._service.create_job
          (resolve_parameters progX ((to_resolvers sweepTwo).get ⟨k, hk2⟩)) 4
          sampQpu._target = Except.ok j ∧
        j.results = Except.ok raw ∧
        resTwoQpu.get ⟨k, hk⟩ =
          convertOne sampQpu._seed 0 raw ((to_resolvers sweepTwo).get ⟨k, hk2⟩) :=
  run_sweep_output_matches_sweep sampQpu progX sweepTwo 4 0 resTwoQpu (by decide)

/-- C2: a successful run makes exactly one create_job call per resolver, in sweep order:
the creation events of the trace are the enumerated resolvers, each call passing the
resolved circuit, the repetition count unchanged (any integer: nothing is validated
locally) and the adapter's configured target. -/
theorem run_sweep_create_calls (s : Sampler) (prog : Circuit) (params : Sweepable)
    (reps amb : Int) (res : List CirqResult)
    (h : (s.run_sweep prog params reps amb).2 = Except.ok res) :
    ((s.run_sweep prog params reps amb).1.filter Event.isCreate).length =
      (to_resolvers params).length ∧
    (s.run_sweep prog params reps amb).1.filter Event.isCreate =
      ((to_resolvers params).enum).map
        (fun p => Event.createJob p.1 (resolve_parameters prog p.2) reps s._target) := by
  obtain ⟨tr1, tr2, jobs, raws, hc, ha, htr, -⟩ := run_sweep_ok_inv h
  obtain ⟨htr1, hfa⟩ := createJobsFrom_ok (to_resolvers params) 0 tr1 jobs hc
  obtain ⟨htr2, -⟩ := awaitResultsFrom_ok jobs 0 tr2 raws ha
  have hfil : (s.run_sweep prog params reps amb).1.filter Event.isCreate =
      expectedCreates prog reps s._target 0 (to_resolvers params) := by
    rw [htr, List.filter_append, htr1, htr2, filter_isCreate_expectedCreates,
      filter_isCreate_expectedAwaits, List.append_nil]
  constructor
  · rw [hfil, expectedCreates_eq_enumFrom, List.length_map, List.enumFrom_length]
  · rw [hfil, expectedCreates_eq_enumFrom]
    rfl

/-- C2 witness: a concrete two-point sweep with repetitions 4 issues exactly two creation
calls, each requesting 4 repetitions on the configured target. -/
theorem run_sweep_create_calls_witness :
    ((sampQpu.run_sweep progX sweepTwo 4 0).1.filter Event.isCreate).length =
      (to_resolvers sweepTwo).length ∧
    (sampQpu.run_sweep progX sweepTwo 4 0).1.filter Event.isCreate =
      ((to_resolvers sweepTwo).enum).map
        (fun p => Event.createJob p.1 (resolve_parameters progX p.2) 4 sampQpu._target) :=
  run_sweep_create_calls sampQpu progX sweepTwo 4 0 resTwoQpu (by decide)

/-- C6: on a successful run the whole trace is every creation call, in sweep order,
followed by every blocking results() call, in sweep order: each job is created before any
job's result is awaited. -/
theorem run_sweep_creates_before_awaits (s : Sampler) (prog : Circuit) (params : Sweepable)
    (reps amb : Int) (res : List CirqResult)
    (h : (s.run_sweep prog params reps amb).2 = Except.ok res) :
    (s.run_sweep prog params reps amb).1 =
      expectedCreates prog reps s._target 0 (to_resolvers params) ++
        (List.range (to_resolvers params).length).map Event.awaitResults := by
  obtain ⟨tr1, tr2, jobs, raws, hc, ha, htr, -⟩ := run_sweep_ok_inv h
  obtain ⟨htr1, hfa⟩ := createJobsFrom_ok (to_resolvers params) 0 tr1 jobs hc
  obtain ⟨htr2, -⟩ := awaitResultsFrom_ok jobs 0 tr2 raws ha
  have hlen : jobs.length = (to_resolvers params).length := (List.Forall₂.length_eq hfa).symm
  rw [htr, htr1, htr2, hlen, expectedAwaits_zero_eq_range]

/-- C6 witness: the concrete two-point run's trace is its two creation events followed by
its two await events. -/
theorem run_sweep_creates_before_awaits_witness :
    (sampQpu.run_sweep progX sweepTwo 4 0).1 =
      expectedCreates progX 4 sampQpu._target 0 (to_resolvers sweepTwo) ++
        (List.range (to_resolvers sweepTwo).length).map Event.awaitResults :=
  run_sweep_creates_before_awaits sampQpu progX sweepTwo 4 0 resTwoQpu (by decide)

/-- C7: resolving against the empty resolver is the identity, so for a sweep expanding to
the single empty resolver the circuit passed to the create_job call, recorded in the first
trace event, is the original program. -/
theorem run_sweep_empty_resolver_submits_original (s : Sampler) (prog : Circuit)
    (reps amb : Int) :
    resolve_parameters prog (Resolver.mk []) = prog ∧
    (s.run_sweep prog [Resolver.mk []] reps amb).1.head? =
      some (Event.createJob 0 prog reps s._target) := by
  refine ⟨resolve_parameters_empty prog, ?_⟩
  cases hc : s._service.create_job (resolve_parameters prog (Resolver.mk [])) reps s._target with
  | error e =>
    have h1 : createJobsFrom s._service prog reps s._target 0 (to_resolvers [Resolver.mk []]) =
        ([Event.createJob 0 (resolve_parameters prog (Resolver.mk [])) reps s._target],
          Except.error e) := by
      simp [createJobsFrom, to_resolvers, hc]
    rw [run_sweep_eq_of_create_error h1]
    simp [resolve_parameters_empty]
  | ok j =>
    have h1 : createJobsFrom s._service prog reps s._target 0 (to_resolvers [Resolver.mk []]) =
        ([Event.createJob 0 (resolve_parameters prog (Resolver.mk [])) reps s._target],
          Except.ok [j]) := by
      simp [createJobsFrom, to_resolvers, hc, Except.map]
    cases hr : j.results with
    | error e =>
      have h2 : awaitResultsFrom 0 [j] = ([Event.awaitResults 0], Except.error e) := by
        simp [awaitResultsFrom, hr]
      rw [run_sweep_eq_of_await_error h1 h2]
      simp [resolve_parameters_empty]
    | ok r =>
      have h2 : awaitResultsFrom 0 [j] = ([Event.awaitResults 0], Except.ok [r]) := by
        simp [awaitResultsFrom, hr, Except.map]
      rw [run_sweep_eq_of_ok h1 h2]
      simp [resolve_parameters_empty]

end CirqIonq
